import Mathlib

/-!
A shallow embedding of the vizfx effect-engine core, translated from the
repository sources:

* `ParticleSystem` (emitter, physics integration, in-place recycling,
  `setCount`, `resize`, `setEmitterPosition`) and the `VizFX` engine class
  (effect list, frame scheduler, resize broadcast, teardown) from
  `src/unnamed/part_002`;
* `FloatingParticles` (toroidal wrap-around update, proportional resize,
  pairwise proximity graph) from `src/unnamed/part_001`.

JavaScript numbers are modelled as real numbers.  `Math.random()` is made
explicit: every construct that draws randomness receives a stream
`u : ℕ → ℝ` of raw draws together with a cursor `k : ℕ`, and each textual
call of `random(min, max)` in the source consumes one draw from the stream.
Mutation is modelled by explicit state passing.
-/

/-- Modelled from the spec: the 2D vector type of `utils/math.ts` (that file
is not under `src/`; §2 of the spec describes a pure "2D vector type" and the
README documents `set`, `add` and `distance`). -/
structure Vec2 where
  x : ℝ
  y : ℝ
  deriving Inhabited

/-- Modelled from the spec: `Vec2.set(x, y)` overwrites both coordinates. -/
def Vec2.set (_v : Vec2) (x y : ℝ) : Vec2 := ⟨x, y⟩

/-- Modelled from the spec: `Vec2.add(other)` adds componentwise (used by the
particle system for velocity and position integration). -/
noncomputable def Vec2.add (v w : Vec2) : Vec2 := ⟨v.x + w.x, v.y + w.y⟩

/-- Modelled from the spec: `Vec2.distance(other)` is the Euclidean distance
(§4.4: "compute Euclidean distance"). -/
noncomputable def Vec2.distance (v w : Vec2) : ℝ :=
  Real.sqrt ((v.x - w.x) ^ 2 + (v.y - w.y) ^ 2)

/-- Modelled from the spec: `random(min, max)` samples uniformly from
`[min, max]`; the raw draw `u ∈ [0, 1)` is passed explicitly, giving
`min + u * (max - min)`. -/
noncomputable def random (lo hi u : ℝ) : ℝ := lo + u * (hi - lo)

/-- `ParticleSystemOptions` after the constructor has merged defaults
(`ParticleSystem.constructor` in `src/unnamed/part_002`). -/
structure PSOptions where
  count : ℕ
  color : String
  size : ℝ
  speed : ℝ
  lifetime : ℝ
  gravity : Vec2
  emitterPosition : Vec2
  emitterRadius : ℝ
  fadeOut : Bool

/-- The constructor defaults of `ParticleSystem`. -/
noncomputable def defaultPSOptions : PSOptions :=
  { count := 1000, color := "#ffffff", size := 3, speed := 100, lifetime := 3,
    gravity := ⟨0, -50⟩, emitterPosition := ⟨0, 0⟩, emitterRadius := 50,
    fadeOut := true }

/-- The `Particle` record of `src/unnamed/part_002`. -/
structure Particle where
  position : Vec2
  velocity : Vec2
  life : ℝ
  maxLife : ℝ
  size : ℝ
  deriving Inhabited

/-- The mutable fields of a `ParticleSystem` instance. -/
structure PSState where
  options : PSOptions
  particles : List Particle
  width : ℝ
  height : ℝ

/-- `ParticleSystem.createParticle`: emission at a uniformly random angle and
radius around the emitter, speed in `[0.5·speed, 1.5·speed]`, size in
`[0.5·size, 1.5·size]`, `life = maxLife = lifetime`.  The call consumes the
four raw draws `u k .. u (k+3)` (angle, radius, speed, size). -/
noncomputable def createParticle (o : PSOptions) (u : ℕ → ℝ) (k : ℕ) : Particle :=
  let angle := random 0 (Real.pi * 2) (u k)
  let radius := random 0 o.emitterRadius (u (k + 1))
  let speed := random (o.speed * 0.5) (o.speed * 1.5) (u (k + 2))
  { position := ⟨o.emitterPosition.x + Real.cos angle * radius,
                 o.emitterPosition.y + Real.sin angle * radius⟩,
    velocity := ⟨Real.cos angle * speed, Real.sin angle * speed⟩,
    life := o.lifetime,
    maxLife := o.lifetime,
    size := random (o.size * 0.5) (o.size * 1.5) (u (k + 3)) }

/-- The body of the `for` loop of `ParticleSystem.update`: decrement `life`
by `deltaTime`; if the decremented life is `≤ 0` replace the particle in
place by `createParticle()` (which consumes 4 draws), otherwise add
`gravity * deltaTime` to the velocity and then the updated
`velocity * deltaTime` to the position.  Returns the updated list together
with the advanced draw cursor. -/
noncomputable def updateLoop (o : PSOptions) (dt : ℝ) (u : ℕ → ℝ) :
    List Particle → ℕ → List Particle × ℕ
  | [], k => ([], k)
  | p :: ps, k =>
    if p.life - dt ≤ 0 then
      (createParticle o u k :: (updateLoop o dt u ps (k + 4)).1,
       (updateLoop o dt u ps (k + 4)).2)
    else
      let v := p.velocity.add ⟨o.gravity.x * dt, o.gravity.y * dt⟩
      ({ p with position := p.position.add ⟨v.x * dt, v.y * dt⟩,
                velocity := v,
                life := p.life - dt } :: (updateLoop o dt u ps k).1,
       (updateLoop o dt u ps k).2)

/-- `ParticleSystem.update(time, deltaTime)`. -/
noncomputable def PS.update (s : PSState) (time dt : ℝ) (u : ℕ → ℝ) (k : ℕ) :
    PSState × ℕ :=
  ({ s with particles := (updateLoop s.options dt u s.particles k).1 },
   (updateLoop s.options dt u s.particles k).2)

/-- `ParticleSystem.resize(width, height)`: store the logical size and
recenter the emitter to `(width/2, height/2)` whenever it is exactly at the
origin at the time of the call. -/
noncomputable def PS.resize (s : PSState) (width height : ℝ) : PSState :=
  let s1 := { s with width := width, height := height }
  if s1.options.emitterPosition.x = 0 ∧ s1.options.emitterPosition.y = 0 then
    { s1 with options := { s1.options with
        emitterPosition := s1.options.emitterPosition.set (width / 2) (height / 2) } }
  else s1

/-- `ParticleSystem.setEmitterPosition(x, y)`. -/
def PS.setEmitterPosition (s : PSState) (x y : ℝ) : PSState :=
  { s with options := { s.options with
      emitterPosition := s.options.emitterPosition.set x y } }

/-- `ParticleSystem.setColor(color)`. -/
def PS.setColor (s : PSState) (c : String) : PSState :=
  { s with options := { s.options with color := c } }

/-- The `while (particles.length < count)` growth loop of
`ParticleSystem.setCount`, appending `n` freshly emitted particles. -/
noncomputable def growLoop (o : PSOptions) (u : ℕ → ℝ) :
    ℕ → List Particle → ℕ → List Particle × ℕ
  | 0, ps, k => (ps, k)
  | n + 1, ps, k => growLoop o u n (ps ++ [createParticle o u k]) (k + 4)

/-- `ParticleSystem.setCount(count)`: store the new count, grow by appending
freshly emitted particles while the array is shorter, then truncate the tail
if it is longer. -/
noncomputable def PS.setCount (s : PSState) (n : ℕ) (u : ℕ → ℝ) (k : ℕ) :
    PSState × ℕ :=
  let o := { s.options with count := n }
  let grown := if s.particles.length < n
    then growLoop o u (n - s.particles.length) s.particles k
    else (s.particles, k)
  let final := if n < grown.1.length then grown.1.take n else grown.1
  ({ s with options := o, particles := final }, grown.2)

/-- The per-particle vertex data uploaded by `ParticleSystem.render`
(clip-space x, clip-space y, size, alpha); `render` reads but never mutates
the particle list. -/
noncomputable def PS.renderData (s : PSState) : List ℝ :=
  s.particles.flatMap fun p =>
    [(p.position.x / s.width) * 2 - 1, (p.position.y / s.height) * 2 - 1,
     p.size, if s.options.fadeOut then p.life / p.maxLife else 1]

/-- The host-visible calls of a `ParticleSystem` tick sequence. -/
inductive PSCmd where
  | update (time dt : ℝ)
  | render
  | setCount (n : ℕ)

/-- Running a sequence of `update` / `render` / `setCount` calls against a
`ParticleSystem`, threading the draw cursor; `render` does not change the
simulation state. -/
noncomputable def PS.run (u : ℕ → ℝ) : List PSCmd → PSState → ℕ → PSState × ℕ
  | [], s, k => (s, k)
  | PSCmd.update t dt :: cs, s, k =>
      PS.run u cs (PS.update s t dt u k).1 (PS.update s t dt u k).2
  | PSCmd.render :: cs, s, k => PS.run u cs s k
  | PSCmd.setCount n :: cs, s, k =>
      PS.run u cs (PS.setCount s n u k).1 (PS.setCount s n u k).2

/-- The argument of the last `setCount` call of a command sequence, if any. -/
def lastSetCount : List PSCmd → Option ℕ
  | [] => none
  | c :: cs =>
    match lastSetCount cs with
    | some n => some n
    | none =>
      match c with
      | PSCmd.setCount n => some n
      | _ => none

/-- `FloatingParticlesOptions` after the constructor has merged defaults
(`FloatingParticles.constructor` in `src/unnamed/part_001`). -/
structure FPOptions where
  count : ℕ
  color : String
  size : ℝ
  speed : ℝ
  connectionDistance : ℝ
  showConnections : Bool

/-- The constructor defaults of `FloatingParticles`. -/
def defaultFPOptions : FPOptions :=
  { count := 100, color := "#ffffff", size := 2, speed := 20,
    connectionDistance := 150, showConnections := true }

/-- The `FloatingParticle` record of `src/unnamed/part_001`: position,
velocity and render size; no lifetime. -/
structure FParticle where
  position : Vec2
  velocity : Vec2
  size : ℝ
  deriving Inhabited

/-- The mutable fields of a `FloatingParticles` instance. -/
structure FPState where
  options : FPOptions
  particles : List FParticle
  width : ℝ
  height : ℝ

/-- One particle built by `FloatingParticles.initParticles`: uniformly random
position within the surface, per-axis velocity in `[-speed, speed]`, size in
`[0.5·size, 1.5·size]`.  Consumes the five raw draws `u k .. u (k+4)`. -/
noncomputable def createFloating (o : FPOptions) (w h : ℝ) (u : ℕ → ℝ) (k : ℕ) :
    FParticle :=
  { position := ⟨random 0 w (u k), random 0 h (u (k + 1))⟩,
    velocity := ⟨random (-o.speed) o.speed (u (k + 2)),
                 random (-o.speed) o.speed (u (k + 3))⟩,
    size := random (o.size * 0.5) (o.size * 1.5) (u (k + 4)) }

/-- The `for` loop of `FloatingParticles.initParticles`, building `n`
particles (each consuming 5 draws). -/
noncomputable def initFloatingLoop (o : FPOptions) (w h : ℝ) (u : ℕ → ℝ) :
    ℕ → ℕ → List FParticle
  | 0, _ => []
  | n + 1, k => createFloating o w h u k :: initFloatingLoop o w h u n (k + 5)

/-- The loop body of `FloatingParticles.update`: integrate the position by
`velocity * deltaTime`, then wrap each coordinate past an edge of the logical
surface to the opposite edge (the four `if`s run in source order on the
already-integrated, already-wrapped value). -/
noncomputable def fpMove (w h dt : ℝ) (p : FParticle) : FParticle :=
  let x1 := p.position.x + p.velocity.x * dt
  let y1 := p.position.y + p.velocity.y * dt
  let x2 := if x1 < 0 then w else x1
  let x3 := if x2 > w then 0 else x2
  let y2 := if y1 < 0 then h else y1
  let y3 := if y2 > h then 0 else y2
  { p with position := ⟨x3, y3⟩ }

/-- `FloatingParticles.update(time, deltaTime)`. -/
noncomputable def FP.update (s : FPState) (time dt : ℝ) : FPState :=
  { s with particles := s.particles.map (fpMove s.width s.height dt) }

/-- The proximity graph built inside `FloatingParticles.renderConnections`:
for every `i` and every `j` in `i+1 .. n-1` (the nested `for` loops), if the
Euclidean distance of particles `i` and `j` is below `connectionDistance`,
emit the edge `(i, j)` with alpha weight `1 - dist / connectionDistance`.
The graph is recomputed on every render and not persisted. -/
noncomputable def connectionEdges (s : FPState) : List (ℕ × ℕ × ℝ) :=
  (List.range s.particles.length).flatMap fun i =>
    (List.range' (i + 1) (s.particles.length - (i + 1))).filterMap fun j =>
      if (s.particles.getD i default).position.distance
           (s.particles.getD j default).position < s.options.connectionDistance
      then some (i, j,
        1 - (s.particles.getD i default).position.distance
              (s.particles.getD j default).position / s.options.connectionDistance)
      else none

/-- `FloatingParticles.resize(width, height)`: if a prior logical size is
known (both old dimensions positive) rescale every position proportionally,
otherwise re-run `initParticles` against the new size.  Returns the new
state together with the advanced draw cursor (`initParticles` consumes
`5 * count` draws, proportional rescaling consumes none). -/
noncomputable def FP.resize (s : FPState) (w h : ℝ) (u : ℕ → ℝ) (k : ℕ) :
    FPState × ℕ :=
  let oldW := s.width
  let oldH := s.height
  let s1 := { s with width := w, height := h }
  if 0 < oldW ∧ 0 < oldH then
    ({ s1 with particles := s1.particles.map fun p =>
        { p with position := ⟨p.position.x / oldW * w, p.position.y / oldH * h⟩ } }, k)
  else
    ({ s1 with particles := initFloatingLoop s1.options w h u s1.options.count k },
     k + 5 * s1.options.count)

/-- The result a `VizFX` method hands back to its caller: the engine
instance itself (`return this`) or nothing (`void`, i.e. `undefined`). -/
inductive RetVal where
  | self
  | undef
  deriving DecidableEq

/-- The `window` listener registry, as far as the engine touches it.
Closures are identified by allocation order: each textual arrow function
the engine creates draws a fresh identifier from `nextId`, and
`removeEventListener` removes its argument only if that very closure is
registered. -/
structure Window where
  listeners : List ℕ
  nextId : ℕ

/-- `window.addEventListener('resize', fresh-closure)`: registers a freshly
allocated closure. -/
def Window.addFresh (w : Window) : Window :=
  { listeners := w.listeners ++ [w.nextId], nextId := w.nextId + 1 }

/-- `window.removeEventListener('resize', fresh-closure)`: allocates a fresh
closure and removes it — removing a closure that was never registered leaves
the list unchanged. -/
def Window.removeFresh (w : Window) : Window :=
  { listeners := w.listeners.erase w.nextId, nextId := w.nextId + 1 }

/-- The mutable fields of a `VizFX` engine instance.  Registered effects are
identified by reference (a natural number); `animationId` is the pending
frame callback (`Option`: at most one is registered at any time);
`interaction` is the interaction manager handle. -/
structure EngineState where
  effects : List ℕ
  isRunning : Bool
  animationId : Option ℕ
  startTime : ℝ
  lastTime : ℝ
  hasGL : Bool
  interaction : Option Unit
  canvasW : ℝ
  canvasH : ℝ
  dpr : ℝ

/-- The `VizFX` constructor (with an already-acquired GL context): empty
effect list, not running, interaction manager created, and a freshly
allocated `resize` closure registered on `window`. -/
def engineNew (w : Window) (dpr : ℝ) : EngineState × Window :=
  ({ effects := [], isRunning := false, animationId := none, startTime := 0,
     lastTime := 0, hasGL := true, interaction := some (), canvasW := 0,
     canvasH := 0, dpr := dpr },
   w.addFresh)

/-- `VizFX.addEffect(effect)`: no-op without a context, otherwise append the
effect to the ordered list; returns `this`. -/
def engineAddEffect (s : EngineState) (e : ℕ) : EngineState × RetVal :=
  if s.hasGL = false then (s, RetVal.self)
  else ({ s with effects := s.effects ++ [e] }, RetVal.self)

/-- `VizFX.removeEffect(effect)`: no-op without a context or when the effect
is not in the list, otherwise remove its first occurrence; returns `this`. -/
def engineRemoveEffect (s : EngineState) (e : ℕ) : EngineState × RetVal :=
  if s.hasGL = false then (s, RetVal.self)
  else if e ∈ s.effects then ({ s with effects := s.effects.erase e }, RetVal.self)
  else (s, RetVal.self)

/-- The state change of one `animate` tick: early return when the engine is
not running or has no context, otherwise register the next frame callback
and advance `lastTime` (the per-effect `update` and `render` calls are
captured by `animateEvents` below). -/
def animateStep (s : EngineState) (now : ℝ) (rafId : ℕ) : EngineState :=
  if s.isRunning = true ∧ s.hasGL = true then
    { s with animationId := some rafId, lastTime := now }
  else s

/-- `VizFX.start()`: if already running do nothing, otherwise record the
start timestamp and run the first `animate` tick; returns `this`. -/
def engineStart (s : EngineState) (now : ℝ) (rafId : ℕ) : EngineState × RetVal :=
  if s.isRunning = true then (s, RetVal.self)
  else (animateStep { s with isRunning := true, startTime := now, lastTime := now }
          now rafId, RetVal.self)

/-- `VizFX.stop()`: if not running do nothing, otherwise clear the running
flag and cancel the pending frame callback if one exists; returns `this`. -/
def engineStop (s : EngineState) : EngineState × RetVal :=
  if s.isRunning = false then (s, RetVal.self)
  else ({ s with isRunning := false, animationId := none }, RetVal.self)

/-- `VizFX.resize(width, height)` on the engine's own state: no-op without a
context, otherwise update the backing pixel dimensions using the
device-pixel-ratio scale; returns `this`.  (The broadcast of the logical
size to every effect is modelled by `Scene.resize` below.) -/
noncomputable def engineResize (s : EngineState) (w h : ℝ) : EngineState × RetVal :=
  if s.hasGL = false then (s, RetVal.self)
  else ({ s with canvasW := w * s.dpr, canvasH := h * s.dpr }, RetVal.self)

/-- `VizFX.destroy()`: stop the scheduler, destroy every effect's GPU
resources, clear the effect list, release the interaction manager, and call
`window.removeEventListener('resize', ...)` with a freshly created closure.
The method's return type is `void`, i.e. it returns `undefined`. -/
def engineDestroy (s : EngineState) (w : Window) :
    EngineState × Window × RetVal :=
  ({ (engineStop s).1 with effects := [], interaction := none },
   w.removeFresh, RetVal.undef)

/-- The observable actions of one frame tick. -/
inductive FrameEvent where
  | clear
  | update (e : ℕ)
  | render (e : ℕ)
  deriving DecidableEq

/-- The `for (const effect of this.effects)` loop of `VizFX.animate`: each
effect's `update` is immediately followed by that same effect's `render`
before the next effect is touched. -/
def effectPassEvents : List ℕ → List FrameEvent
  | [] => []
  | e :: es => FrameEvent.update e :: FrameEvent.render e :: effectPassEvents es

/-- The ordered actions of one `animate` tick: nothing when not running or
without a context; otherwise clear the surface first, then run the single
interleaved update/render pass over the registered effects. -/
def animateEvents (s : EngineState) : List FrameEvent :=
  if s.isRunning = true ∧ s.hasGL = true then
    FrameEvent.clear :: effectPassEvents s.effects
  else []

/-- Written from the spec's words (§4.1): the single interleaved pass, each
effect's `update(time, deltaTime)` immediately followed by that same
effect's `render`. -/
def interleavedPass (es : List ℕ) : List FrameEvent :=
  es.flatMap fun e => [FrameEvent.update e, FrameEvent.render e]

/-- Written from the spec's words (§4.1, negatively): the forbidden shape —
an update pass over all effects followed by a render pass. -/
def twoPass (es : List ℕ) : List FrameEvent :=
  es.map FrameEvent.update ++ es.map FrameEvent.render

/-- A registered effect of the resize model: a `ParticleSystem` or a
`FloatingParticles` instance. -/
inductive EffState where
  | ps (s : PSState)
  | fp (s : FPState)

/-- `effect.resize(w, h)` dispatched over the effect type, threading the
draw cursor (`FloatingParticles.resize` may re-run `initParticles`). -/
noncomputable def EffState.resize : EffState → ℝ → ℝ → (ℕ → ℝ) → ℕ → EffState × ℕ
  | EffState.ps s, w, h, _, k => (EffState.ps (PS.resize s w h), k)
  | EffState.fp s, w, h, u, k =>
      ((EffState.fp (FP.resize s w h u k).1), (FP.resize s w h u k).2)

/-- The `for (const effect of this.effects) effect.resize(w, h)` loop of
`VizFX.resize`. -/
noncomputable def resizeEffectList (w h : ℝ) (u : ℕ → ℝ) :
    List EffState → ℕ → List EffState × ℕ
  | [], k => ([], k)
  | e :: es, k =>
    ((EffState.resize e w h u k).1 ::
       (resizeEffectList w h u es (EffState.resize e w h u k).2).1,
     (resizeEffectList w h u es (EffState.resize e w h u k).2).2)

/-- The engine state that `VizFX.resize` touches: the backing canvas size
and the registered effects themselves. -/
structure Scene where
  canvasW : ℝ
  canvasH : ℝ
  dpr : ℝ
  effects : List EffState

/-- `VizFX.resize(width, height)` with explicit dimensions: scale the
backing canvas by the device-pixel ratio and broadcast the logical size to
every registered effect in order. -/
noncomputable def Scene.resize (sc : Scene) (w h : ℝ) (u : ℕ → ℝ) (k : ℕ) :
    Scene × ℕ :=
  ({ sc with canvasW := w * sc.dpr, canvasH := h * sc.dpr,
             effects := (resizeEffectList w h u sc.effects k).1 },
   (resizeEffectList w h u sc.effects k).2)

/-- A concrete engine state (two registered effects, running, with a GL
context) used by scenario parts of the engine theorems. -/
def engDemo : EngineState :=
  { effects := [0, 1], isRunning := true, animationId := none, startTime := 0,
    lastTime := 0, hasGL := true, interaction := some (), canvasW := 0,
    canvasH := 0, dpr := 1 }

/-- The single interleaved pass of `animate` coincides with the spec's
interleaving. -/
theorem effectPassEvents_eq_interleavedPass :
    ∀ es : List ℕ, effectPassEvents es = interleavedPass es := by
  intro es
  induction es with
  | nil => rfl
  | cons e es ih => simp [effectPassEvents, interleavedPass, ih]

/-- C5: on a frame tick of a running engine the surface is cleared first and
the effects are then visited once, in registration order, each effect's
`update` immediately followed by that same effect's `render` (a single
interleaved pass); on the concrete two-effect engine `engDemo` the tick is
not an update pass over all effects followed by a render pass. -/
theorem engine_tick_interleaved (s : EngineState)
    (h1 : s.isRunning = true) (h2 : s.hasGL = true) :
    animateEvents s = FrameEvent.clear :: interleavedPass s.effects ∧
    animateEvents engDemo ≠ FrameEvent.clear :: twoPass engDemo.effects := by
  constructor
  · rw [animateEvents, if_pos ⟨h1, h2⟩, effectPassEvents_eq_interleavedPass]
  · decide

/-- Witness for `engine_tick_interleaved` at the concrete engine `engDemo`. -/
theorem engine_tick_interleaved_witness :
    engDemo.isRunning = true ∧ engDemo.hasGL = true ∧
    (animateEvents engDemo = FrameEvent.clear :: interleavedPass engDemo.effects ∧
     animateEvents engDemo ≠ FrameEvent.clear :: twoPass engDemo.effects) :=
  ⟨rfl, rfl, engine_tick_interleaved engDemo rfl rfl⟩

/-- C7: double `start`, double `stop`, removing an absent effect and a second
`destroy` are all state-preserving no-ops (the scheduler registration is an
`Option`, so at most one frame callback is registered at any time by
construction). -/
theorem engine_noop_operations (s : EngineState) (e : ℕ) (now : ℝ)
    (rafId : ℕ) (w : Window) (hw : ∀ c ∈ w.listeners, c < w.nextId) :
    (s.isRunning = true → engineStart s now rafId = (s, RetVal.self)) ∧
    (s.isRunning = false → engineStop s = (s, RetVal.self)) ∧
    (e ∉ s.effects → engineRemoveEffect s e = (s, RetVal.self)) ∧
    ((engineDestroy (engineDestroy s w).1 (engineDestroy s w).2.1).1
        = (engineDestroy s w).1 ∧
     (engineDestroy (engineDestroy s w).1 (engineDestroy s w).2.1).2.1.listeners
        = (engineDestroy s w).2.1.listeners) := by
  refine ⟨?_, ?_, ?_, ?_, ?_⟩
  · intro h; rw [engineStart, if_pos h]
  · intro h; rw [engineStop, if_pos h]
  · intro h
    rw [engineRemoveEffect]
    by_cases hgl : s.hasGL = false
    · rw [if_pos hgl]
    · rw [if_neg hgl, if_neg h]
  · obtain ⟨efs, run, aid, st, lt, gl, ia, cw, ch, dp⟩ := s
    cases run <;> simp [engineDestroy, engineStop]
  · have hnm : w.nextId + 1 ∉ w.listeners.erase w.nextId := by
      intro hmem
      have hx := List.mem_of_mem_erase hmem
      have := hw _ hx
      omega
    simp only [engineDestroy, Window.removeFresh]
    exact List.erase_of_not_mem hnm

/-- Witness for `engine_noop_operations` at a concrete engine and window. -/
theorem engine_noop_operations_witness :
    (∀ c ∈ (Window.mk [0] 1).listeners, c < (Window.mk [0] 1).nextId) ∧
    ((engDemo.isRunning = true →
        engineStart engDemo 0 7 = (engDemo, RetVal.self)) ∧
     (engDemo.isRunning = false → engineStop engDemo = (engDemo, RetVal.self)) ∧
     (5 ∉ engDemo.effects → engineRemoveEffect engDemo 5 = (engDemo, RetVal.self)) ∧
     ((engineDestroy (engineDestroy engDemo (Window.mk [0] 1)).1
          (engineDestroy engDemo (Window.mk [0] 1)).2.1).1
        = (engineDestroy engDemo (Window.mk [0] 1)).1 ∧
      (engineDestroy (engineDestroy engDemo (Window.mk [0] 1)).1
          (engineDestroy engDemo (Window.mk [0] 1)).2.1).2.1.listeners
        = (engineDestroy engDemo (Window.mk [0] 1)).2.1.listeners)) :=
  ⟨by decide, engine_noop_operations engDemo 5 0 7 (Window.mk [0] 1) (by decide)⟩

/-- The window used by the C8 scenario: no listener registered yet. -/
def w8 : Window := ⟨[], 0⟩

/-- C8 counterexample: constructing an engine and then destroying it does
not restore the window's resize-listener registry to its pre-construction
state — the listener registered by the constructor is still there, because
`destroy` passes a fresh closure to `removeEventListener`. -/
theorem engine_destroy_listener_cex :
    ((engineDestroy (engineNew w8 1).1 (engineNew w8 1).2).2.1).listeners
      ≠ w8.listeners := by
  decide

/-- C8 (amended): after `destroy()` the window-level resize handler that the
engine registered at construction is still registered; the
`removeEventListener` call uses a fresh closure and removes nothing. -/
theorem engine_destroy_listener_leak (w : Window) (dpr : ℝ)
    (hw : ∀ c ∈ w.listeners, c < w.nextId) :
    ((engineDestroy (engineNew w dpr).1 (engineNew w dpr).2).2.1).listeners
        = w.listeners ++ [w.nextId] ∧
    ((engineDestroy (engineNew w dpr).1 (engineNew w dpr).2).2.1).listeners
        ≠ w.listeners := by
  have hnm : w.nextId + 1 ∉ w.listeners ++ [w.nextId] := by
    intro hmem
    rcases List.mem_append.mp hmem with hmem | hmem
    · have := hw _ hmem; omega
    · simp only [List.mem_singleton] at hmem; omega
  have hlist :
      ((engineDestroy (engineNew w dpr).1 (engineNew w dpr).2).2.1).listeners
        = w.listeners ++ [w.nextId] := by
    simp only [engineDestroy, engineNew, Window.addFresh, Window.removeFresh]
    exact List.erase_of_not_mem hnm
  refine ⟨hlist, ?_⟩
  rw [hlist]
  intro hcontra
  have := congrArg List.length hcontra
  simp at this

/-- Witness for `engine_destroy_listener_leak` at the concrete window `w8`. -/
theorem engine_destroy_listener_leak_witness :
    (∀ c ∈ w8.listeners, c < w8.nextId) ∧
    (((engineDestroy (engineNew w8 1).1 (engineNew w8 1).2).2.1).listeners
        = w8.listeners ++ [w8.nextId] ∧
     ((engineDestroy (engineNew w8 1).1 (engineNew w8 1).2).2.1).listeners
        ≠ w8.listeners) :=
  ⟨by decide, engine_destroy_listener_leak w8 1 (by decide)⟩

/-- C9 counterexample: `destroy()` is declared `void` and hands back
`undefined`, not the engine instance, so not every mutating method supports
chaining. -/
theorem engine_destroy_return_cex :
    (engineDestroy engDemo ⟨[], 0⟩).2.2 = RetVal.undef ∧
    RetVal.undef ≠ RetVal.self := by
  exact ⟨rfl, by decide⟩

/-- C9 (amended): `addEffect`, `removeEffect`, `start`, `stop` and `resize`
each return the engine instance itself, while `destroy` returns
`undefined`. -/
theorem engine_method_returns :
    ∀ (s : EngineState) (e : ℕ) (now : ℝ) (rafId : ℕ) (wd ht : ℝ) (w : Window),
      (engineAddEffect s e).2 = RetVal.self ∧
      (engineRemoveEffect s e).2 = RetVal.self ∧
      (engineStart s now rafId).2 = RetVal.self ∧
      (engineStop s).2 = RetVal.self ∧
      (engineResize s wd ht).2 = RetVal.self ∧
      (engineDestroy s w).2.2 = RetVal.undef := by
  intro s e now rafId wd ht w
  refine ⟨?_, ?_, ?_, ?_, ?_, rfl⟩ <;>
    · first
      | (rw [engineAddEffect]; split_ifs <;> rfl)
      | (rw [engineRemoveEffect]; split_ifs <;> rfl)
      | (rw [engineStart]; split_ifs <;> rfl)
      | (rw [engineStop]; split_ifs <;> rfl)
      | (rw [engineResize]; split_ifs <;> rfl)

/-- C10: `ParticleSystem.resize` recenters the emitter to the surface center
whenever the emitter is exactly at the origin at the time of the call (not
only on the first resize); a non-origin emitter is left unchanged; and an
emitter parked at the origin via `setEmitterPosition(0, 0)` is overwritten
by the next `resize`. -/
theorem particle_resize_recenters_origin_emitter :
    ∀ (s : PSState) (w h : ℝ),
      (s.options.emitterPosition = ⟨0, 0⟩ →
        (PS.resize s w h).options.emitterPosition = ⟨w / 2, h / 2⟩) ∧
      (s.options.emitterPosition ≠ ⟨0, 0⟩ →
        (PS.resize s w h).options.emitterPosition = s.options.emitterPosition) ∧
      ((PS.resize (PS.setEmitterPosition s 0 0) w h).options.emitterPosition
        = ⟨w / 2, h / 2⟩) := by
  intro s w h
  obtain ⟨⟨cnt, col, sz, sp, lt', gv, ⟨ex, ey⟩, er, fo⟩, ps, wd, ht⟩ := s
  refine ⟨?_, ?_, ?_⟩
  · intro he
    simp only [Vec2.mk.injEq] at he
    simp [PS.resize, Vec2.set, he.1, he.2]
  · intro hne
    have hns : ¬(ex = 0 ∧ ey = 0) := by
      intro hc
      exact hne (by simp [hc.1, hc.2])
    simp [PS.resize, Vec2.set, hns]
  · simp [PS.resize, PS.setEmitterPosition, Vec2.set]

/-- `ParticleSystem.update` never changes the number of particles. -/
theorem updateLoop_length (o : PSOptions) (dt : ℝ) (u : ℕ → ℝ) :
    ∀ (ps : List Particle) (k : ℕ), ((updateLoop o dt u ps k).1).length = ps.length := by
  intro ps
  induction ps with
  | nil => intro k; rfl
  | cons p ps ih =>
    intro k
    by_cases h : p.life - dt ≤ 0 <;> simp [updateLoop, h, ih]

/-- Pointwise behaviour of the `ParticleSystem.update` loop: a particle whose
decremented life is not positive is replaced by a fresh one with
`life = maxLife = lifetime`; a surviving particle gets `gravity · dt` added
to its velocity and then the updated velocity times `dt` added to its
position, its life decremented, and keeps `maxLife` and `size`. -/
theorem updateLoop_getD (o : PSOptions) (dt : ℝ) (u : ℕ → ℝ) :
    ∀ (ps : List Particle) (k i : ℕ), i < ps.length →
      (((ps.getD i default).life - dt ≤ 0 →
         (((updateLoop o dt u ps k).1.getD i default).life = o.lifetime ∧
          ((updateLoop o dt u ps k).1.getD i default).maxLife = o.lifetime)) ∧
       (0 < (ps.getD i default).life - dt →
         (((updateLoop o dt u ps k).1.getD i default).velocity
             = (ps.getD i default).velocity.add
                 ⟨o.gravity.x * dt, o.gravity.y * dt⟩ ∧
          ((updateLoop o dt u ps k).1.getD i default).position
             = (ps.getD i default).position.add
                 ⟨((updateLoop o dt u ps k).1.getD i default).velocity.x * dt,
                  ((updateLoop o dt u ps k).1.getD i default).velocity.y * dt⟩ ∧
          ((updateLoop o dt u ps k).1.getD i default).life
             = (ps.getD i default).life - dt ∧
          ((updateLoop o dt u ps k).1.getD i default).maxLife
             = (ps.getD i default).maxLife ∧
          ((updateLoop o dt u ps k).1.getD i default).size
             = (ps.getD i default).size))) := by
  intro ps
  induction ps with
  | nil => intro k i hi; simp at hi
  | cons p ps ih =>
    intro k i hi
    match i with
    | 0 =>
      by_cases h : p.life - dt ≤ 0
      · refine ⟨fun _ => ?_, fun hpos => absurd h (by simp at hpos ⊢; linarith)⟩
        simp [updateLoop, h, createParticle]
      · refine ⟨fun hle => absurd hle (by simpa using h), fun _ => ?_⟩
        simp [updateLoop, h]
    | i + 1 =>
      have hi' : i < ps.length := by simpa using hi
      by_cases h : p.life - dt ≤ 0
      · simpa [updateLoop, h] using ih (k + 4) i hi'
      · simpa [updateLoop, h] using ih k i hi'

/-- When the configured lifetime is positive, every particle is alive after
an update tick: survivors have `life = old life - dt > 0` by the branch
guard, and recycled particles have `life = lifetime`. -/
theorem updateLoop_alive (o : PSOptions) (dt : ℝ) (u : ℕ → ℝ)
    (hl : 0 < o.lifetime) :
    ∀ (ps : List Particle) (k : ℕ), ∀ q ∈ (updateLoop o dt u ps k).1, 0 < q.life := by
  intro ps
  induction ps with
  | nil => intro k q hq; simp [updateLoop] at hq
  | cons p ps ih =>
    intro k q hq
    by_cases h : p.life - dt ≤ 0
    · simp only [updateLoop, if_pos h, List.mem_cons] at hq
      rcases hq with hq | hq
      · rw [hq]; simpa [createParticle] using hl
      · exact ih _ q hq
    · simp only [updateLoop, if_neg h, List.mem_cons] at hq
      rcases hq with hq | hq
      · rw [hq]; simp; linarith [not_le.mp h]
      · exact ih _ q hq

/-- The scenario state of C1: `count = 3`, `lifetime = 1.0`, three live
particles with `life = maxLife = 1` (as produced by `initParticles`). -/
noncomputable def psScenario : PSState :=
  { options := { count := 3, color := "#ffffff", size := 3, speed := 100,
                 lifetime := 1, gravity := ⟨0, -50⟩, emitterPosition := ⟨0, 0⟩,
                 emitterRadius := 50, fadeOut := true },
    particles := [⟨⟨0, 0⟩, ⟨0, 0⟩, 1, 1, 3⟩, ⟨⟨0, 0⟩, ⟨0, 0⟩, 1, 1, 3⟩,
                  ⟨⟨0, 0⟩, ⟨0, 0⟩, 1, 1, 3⟩],
    width := 800, height := 600 }

/-- A fixed stream of raw draws (every `Math.random()` call returns 0). -/
noncomputable def uZero : ℕ → ℝ := fun _ => 0

/-- A `ParticleSystem` constructed with `lifetime = 0` (a value the
constructor accepts), holding one particle with half a second of life. -/
noncomputable def psBad : PSState :=
  { options := { count := 1, color := "#ffffff", size := 3, speed := 100,
                 lifetime := 0, gravity := ⟨0, -50⟩, emitterPosition := ⟨0, 0⟩,
                 emitterRadius := 50, fadeOut := true },
    particles := [⟨⟨0, 0⟩, ⟨0, 0⟩, 1 / 2, 3, 3⟩],
    width := 800, height := 600 }

/-- C1 counterexample: with configured `lifetime = 0` and `deltaTime = 1 > 0`
the recycled particle comes back with `life = 0 ≤ 0`, so the claim's
parenthetical "no particle has life ≤ 0 after update returns" is false as
stated (it needs a positive configured lifetime). -/
theorem particle_update_life_nonpositive_cex :
    (0 : ℝ) < 1 ∧
    (((PS.update psBad 0 1 uZero 0).1).particles.getD 0 default).life ≤ 0 := by
  refine ⟨by norm_num, ?_⟩
  norm_num [PS.update, psBad, updateLoop, createParticle]

/-- C1 (amended): `update` first decrements each particle's life by
`deltaTime`; a particle whose decremented life is `≤ 0` is replaced in place
by a freshly emitted one with `life = maxLife = lifetime`; otherwise its
velocity gains `gravity · deltaTime` and then its position gains the updated
velocity times `deltaTime` (semi-implicit Euler).  Provided the configured
lifetime is positive, no particle has `life ≤ 0` after `update` returns; and
in the scenario (`count = 3`, `lifetime = 1.0`, one update with
`deltaTime = 1.1`) all three particles are recycled back to `life = 1`. -/
theorem particle_update_recycling (s : PSState) (t dt : ℝ) (u : ℕ → ℝ)
    (k : ℕ) (hdt : 0 < dt) :
    ((PS.update s t dt u k).1).particles.length = s.particles.length ∧
    (∀ i, i < s.particles.length →
      (((s.particles.getD i default).life - dt ≤ 0 →
         ((((PS.update s t dt u k).1).particles.getD i default).life
             = s.options.lifetime ∧
          (((PS.update s t dt u k).1).particles.getD i default).maxLife
             = s.options.lifetime)) ∧
       (0 < (s.particles.getD i default).life - dt →
         ((((PS.update s t dt u k).1).particles.getD i default).velocity
             = (s.particles.getD i default).velocity.add
                 ⟨s.options.gravity.x * dt, s.options.gravity.y * dt⟩ ∧
          (((PS.update s t dt u k).1).particles.getD i default).position
             = (s.particles.getD i default).position.add
                 ⟨(((PS.update s t dt u k).1).particles.getD i default).velocity.x * dt,
                  (((PS.update s t dt u k).1).particles.getD i default).velocity.y * dt⟩ ∧
          (((PS.update s t dt u k).1).particles.getD i default).life
             = (s.particles.getD i default).life - dt ∧
          (((PS.update s t dt u k).1).particles.getD i default).maxLife
             = (s.particles.getD i default).maxLife ∧
          (((PS.update s t dt u k).1).particles.getD i default).size
             = (s.particles.getD i default).size)))) ∧
    (0 < s.options.lifetime →
      ∀ q ∈ ((PS.update s t dt u k).1).particles, 0 < q.life) ∧
    (∀ q ∈ ((PS.update psScenario 0 (11 / 10) u 0).1).particles, q.life = 1) := by
  refine ⟨?_, ?_, ?_, ?_⟩
  · exact updateLoop_length s.options dt u s.particles k
  · intro i hi
    exact updateLoop_getD s.options dt u s.particles k i hi
  · intro hl q hq
    exact updateLoop_alive s.options dt u hl s.particles k q hq
  · intro q hq
    have hcond : (1 : ℝ) - 11 / 10 ≤ 0 := by norm_num
    simp [PS.update, psScenario, updateLoop, hcond, createParticle] at hq
    rcases hq with hq | hq | hq <;> rw [hq]

/-- Witness for `particle_update_recycling` at the scenario state with
`deltaTime = 11/10 > 0`. -/
theorem particle_update_recycling_witness :
    (0 : ℝ) < 11 / 10 ∧
    (((PS.update psScenario 0 (11 / 10) uZero 0).1).particles.length
        = psScenario.particles.length ∧
     (∀ i, i < psScenario.particles.length →
       (((psScenario.particles.getD i default).life - 11 / 10 ≤ 0 →
          ((((PS.update psScenario 0 (11 / 10) uZero 0).1).particles.getD i default).life
              = psScenario.options.lifetime ∧
           (((PS.update psScenario 0 (11 / 10) uZero 0).1).particles.getD i default).maxLife
              = psScenario.options.lifetime)) ∧
        (0 < (psScenario.particles.getD i default).life - 11 / 10 →
          ((((PS.update psScenario 0 (11 / 10) uZero 0).1).particles.getD i default).velocity
              = (psScenario.particles.getD i default).velocity.add
                  ⟨psScenario.options.gravity.x * (11 / 10),
                   psScenario.options.gravity.y * (11 / 10)⟩ ∧
           (((PS.update psScenario 0 (11 / 10) uZero 0).1).particles.getD i default).position
              = (psScenario.particles.getD i default).position.add
                  ⟨(((PS.update psScenario 0 (11 / 10) uZero 0).1).particles.getD i default).velocity.x * (11 / 10),
                   (((PS.update psScenario 0 (11 / 10) uZero 0).1).particles.getD i default).velocity.y * (11 / 10)⟩ ∧
           (((PS.update psScenario 0 (11 / 10) uZero 0).1).particles.getD i default).life
              = (psScenario.particles.getD i default).life - 11 / 10 ∧
           (((PS.update psScenario 0 (11 / 10) uZero 0).1).particles.getD i default).maxLife
              = (psScenario.particles.getD i default).maxLife ∧
           (((PS.update psScenario 0 (11 / 10) uZero 0).1).particles.getD i default).size
              = (psScenario.particles.getD i default).size)))) ∧
     (0 < psScenario.options.lifetime →
       ∀ q ∈ ((PS.update psScenario 0 (11 / 10) uZero 0).1).particles, 0 < q.life) ∧
     (∀ q ∈ ((PS.update psScenario 0 (11 / 10) uZero 0).1).particles, q.life = 1)) :=
  ⟨by norm_num, particle_update_recycling psScenario 0 (11 / 10) uZero 0 (by norm_num)⟩

/-- The `setCount` growth loop appends exactly `n` particles. -/
theorem growLoop_length (o : PSOptions) (u : ℕ → ℝ) :
    ∀ (n : ℕ) (ps : List Particle) (k : ℕ),
      ((growLoop o u n ps k).1).length = ps.length + n := by
  intro n
  induction n with
  | zero => intro ps k; simp [growLoop]
  | succ n ih =>
    intro ps k
    simp [growLoop, ih]
    omega

/-- The `setCount` growth loop only appends: the old particles stay as a
prefix. -/
theorem growLoop_eq_append (o : PSOptions) (u : ℕ → ℝ) :
    ∀ (n : ℕ) (ps : List Particle) (k : ℕ),
      ∃ qs : List Particle, (growLoop o u n ps k).1 = ps ++ qs := by
  intro n
  induction n with
  | zero => intro ps k; exact ⟨[], by simp [growLoop]⟩
  | succ n ih =>
    intro ps k
    obtain ⟨qs, hqs⟩ := ih (ps ++ [createParticle o u k]) (k + 4)
    exact ⟨createParticle o u k :: qs, by simp [growLoop, hqs]⟩

/-- After `setCount(n)` the particle array has length exactly `n`. -/
theorem setCount_length (s : PSState) (n : ℕ) (u : ℕ → ℝ) (k : ℕ) :
    ((PS.setCount s n u k).1).particles.length = n := by
  by_cases h : s.particles.length < n
  · have hg := growLoop_length { s.options with count := n } u
      (n - s.particles.length) s.particles k
    have hcond : ¬ n < s.particles.length + (n - s.particles.length) := by omega
    simp [PS.setCount, h, hg, hcond]
    omega
  · by_cases h2 : n < s.particles.length
    · simp [PS.setCount, h, h2]
      omega
    · simp [PS.setCount, h, h2]
      omega

/-- Shrinking via `setCount` truncates the tail: the result is the length-`n`
prefix of the old array. -/
theorem setCount_shrink (s : PSState) (n : ℕ) (u : ℕ → ℝ) (k : ℕ)
    (h : n ≤ s.particles.length) :
    ((PS.setCount s n u k).1).particles = s.particles.take n := by
  have h1 : ¬ s.particles.length < n := by omega
  by_cases h2 : n < s.particles.length
  · simp [PS.setCount, h1, h2]
  · have hn : n = s.particles.length := by omega
    simp [PS.setCount, h1, h2, hn]

/-- Growing via `setCount` appends: the old particles survive unchanged as a
prefix of the result. -/
theorem setCount_grow (s : PSState) (n : ℕ) (u : ℕ → ℝ) (k : ℕ)
    (h : s.particles.length ≤ n) :
    (((PS.setCount s n u k).1).particles).take s.particles.length = s.particles := by
  by_cases h1 : s.particles.length < n
  · obtain ⟨qs, hqs⟩ := growLoop_eq_append { s.options with count := n } u
      (n - s.particles.length) s.particles k
    have hg := growLoop_length { s.options with count := n } u
      (n - s.particles.length) s.particles k
    have hqlen : s.particles.length + qs.length = n := by
      rw [hqs] at hg
      simp at hg
      omega
    have hcond : ¬ n < s.particles.length + qs.length := by omega
    simp [PS.setCount, h1, hqs, hcond, List.take_left]
  · have hn : n = s.particles.length := by omega
    simp [PS.setCount, h1, hn]

/-- Along any `update`/`render`/`setCount` sequence, both the particle-array
length and the stored `count` option track the most recent `setCount`
argument (or the starting count when none occurred). -/
theorem run_count_invariant (u : ℕ → ℝ) :
    ∀ (cs : List PSCmd) (s : PSState) (k : ℕ),
      s.particles.length = s.options.count →
      ((PS.run u cs s k).1).particles.length
          = (lastSetCount cs).getD s.options.count ∧
      ((PS.run u cs s k).1).options.count
          = (lastSetCount cs).getD s.options.count := by
  intro cs
  induction cs with
  | nil =>
    intro s k h
    exact ⟨h, rfl⟩
  | cons c cs ih =>
    intro s k h
    match c with
    | PSCmd.update t dt =>
      have h' : ((PS.update s t dt u k).1).particles.length
          = ((PS.update s t dt u k).1).options.count := by
        have hlen := updateLoop_length s.options dt u s.particles k
        simpa [PS.update] using hlen.trans h
      have hrec := ih (PS.update s t dt u k).1 (PS.update s t dt u k).2 h'
      cases hls : lastSetCount cs <;>
        simp only [PS.run, lastSetCount, hls, Option.getD_some, Option.getD_none] at hrec ⊢ <;>
        simpa [PS.update] using hrec
    | PSCmd.render =>
      have hrec := ih s k h
      cases hls : lastSetCount cs <;>
        simp only [PS.run, lastSetCount, hls, Option.getD_some, Option.getD_none] at hrec ⊢ <;>
        exact hrec
    | PSCmd.setCount n =>
      have h' : ((PS.setCount s n u k).1).particles.length
          = ((PS.setCount s n u k).1).options.count :=
        setCount_length s n u k
      have hrec := ih (PS.setCount s n u k).1 (PS.setCount s n u k).2 h'
      cases hls : lastSetCount cs <;>
        simp only [PS.run, lastSetCount, hls, Option.getD_some, Option.getD_none] at hrec ⊢ <;>
        simpa [PS.setCount] using hrec

/-- C3: over any sequence of `update`/`render`/`setCount` calls the number of
particles equals the constructor count (here: the starting count, with the
`initParticles` invariant `length = count`) or the argument of the most
recent `setCount`; `setCount(n)` yields exactly `n` particles, truncating
the tail when shrinking and appending freshly emitted particles (old ones
kept as a prefix) when growing. -/
theorem particle_count_invariant (u : ℕ → ℝ) (cs : List PSCmd) (s : PSState)
    (k : ℕ) (n : ℕ) (h : s.particles.length = s.options.count) :
    ((PS.run u cs s k).1).particles.length
        = (lastSetCount cs).getD s.options.count ∧
    ((PS.setCount s n u k).1).particles.length = n ∧
    (n ≤ s.particles.length →
      ((PS.setCount s n u k).1).particles = s.particles.take n) ∧
    (s.particles.length ≤ n →
      (((PS.setCount s n u k).1).particles).take s.particles.length = s.particles) :=
  ⟨(run_count_invariant u cs s k h).1, setCount_length s n u k,
   fun hle => setCount_shrink s n u k hle, fun hge => setCount_grow s n u k hge⟩

/-- Witness for `particle_count_invariant` on a concrete three-particle
system, a `render` followed by `setCount 2`. -/
theorem particle_count_invariant_witness :
    psScenario.particles.length = psScenario.options.count ∧
    (((PS.run uZero [PSCmd.render, PSCmd.setCount 2] psScenario 0).1).particles.length
        = (lastSetCount [PSCmd.render, PSCmd.setCount 2]).getD psScenario.options.count ∧
     ((PS.setCount psScenario 2 uZero 0).1).particles.length = 2 ∧
     (2 ≤ psScenario.particles.length →
       ((PS.setCount psScenario 2 uZero 0).1).particles = psScenario.particles.take 2) ∧
     (psScenario.particles.length ≤ 2 →
       (((PS.setCount psScenario 2 uZero 0).1).particles).take psScenario.particles.length
         = psScenario.particles)) :=
  ⟨rfl, particle_count_invariant uZero [PSCmd.render, PSCmd.setCount 2]
     psScenario 0 2 rfl⟩

/-- The wrapped coordinate produced by the two sequential `if`s of
`FloatingParticles.update` always lands in `[0, w]` when `w` is
nonnegative. -/
theorem wrap_bounds (w x : ℝ) (hw : 0 ≤ w) :
    0 ≤ (if (if x < 0 then w else x) > w then 0 else (if x < 0 then w else x)) ∧
    (if (if x < 0 then w else x) > w then 0 else (if x < 0 then w else x)) ≤ w := by
  by_cases h1 : x < 0
  · rw [if_pos h1, if_neg (lt_irrefl w)]
    exact ⟨hw, le_refl w⟩
  · rw [if_neg h1]
    by_cases h2 : x > w
    · rw [if_pos h2]
      exact ⟨le_refl 0, hw⟩
    · rw [if_neg h2]
      exact ⟨not_lt.mp h1, not_lt.mp h2⟩

/-- Case analysis of the sequential wrap of `FloatingParticles.update`:
crossing the low edge lands on `w`, crossing the high edge lands on `0`, and
an in-range coordinate is left unchanged. -/
theorem wrap_cases (w x : ℝ) (hw : 0 ≤ w) :
    (x < 0 → (if (if x < 0 then w else x) > w then 0
              else (if x < 0 then w else x)) = w) ∧
    (x > w → (if (if x < 0 then w else x) > w then 0
              else (if x < 0 then w else x)) = 0) ∧
    (0 ≤ x → x ≤ w → (if (if x < 0 then w else x) > w then 0
              else (if x < 0 then w else x)) = x) := by
  refine ⟨?_, ?_, ?_⟩
  · intro h1
    rw [if_pos h1, if_neg (lt_irrefl w)]
  · intro h2
    have h1 : ¬ x < 0 := not_lt.mpr (le_trans hw (le_of_lt h2))
    rw [if_neg h1, if_pos h2]
  · intro ha hb
    rw [if_neg (not_lt.mpr ha), if_neg (not_lt.mpr hb)]

/-- C4: after `FloatingParticles.update`, every particle of a state whose
coordinates lie within the logical surface stays within `[0, width] ×
[0, height]`; a particle whose integrated position crosses an edge reappears
at the opposite edge, the wrap leaves the perpendicular (in-range)
coordinate at its integrated value, and velocity and size are unchanged. -/
theorem floating_update_wrap_bounds (s : FPState) (t dt : ℝ)
    (h : ∀ p ∈ s.particles, 0 ≤ p.position.x ∧ p.position.x ≤ s.width ∧
          0 ≤ p.position.y ∧ p.position.y ≤ s.height) :
    (∀ q ∈ (FP.update s t dt).particles,
        0 ≤ q.position.x ∧ q.position.x ≤ s.width ∧
        0 ≤ q.position.y ∧ q.position.y ≤ s.height) ∧
    (∀ p ∈ s.particles,
        (fpMove s.width s.height dt p).velocity = p.velocity ∧
        (fpMove s.width s.height dt p).size = p.size ∧
        (p.position.x + p.velocity.x * dt < 0 →
           (fpMove s.width s.height dt p).position.x = s.width) ∧
        (p.position.x + p.velocity.x * dt > s.width →
           (fpMove s.width s.height dt p).position.x = 0) ∧
        (0 ≤ p.position.x + p.velocity.x * dt →
         p.position.x + p.velocity.x * dt ≤ s.width →
           (fpMove s.width s.height dt p).position.x
             = p.position.x + p.velocity.x * dt) ∧
        (p.position.y + p.velocity.y * dt < 0 →
           (fpMove s.width s.height dt p).position.y = s.height) ∧
        (p.position.y + p.velocity.y * dt > s.height →
           (fpMove s.width s.height dt p).position.y = 0) ∧
        (0 ≤ p.position.y + p.velocity.y * dt →
         p.position.y + p.velocity.y * dt ≤ s.height →
           (fpMove s.width s.height dt p).position.y
             = p.position.y + p.velocity.y * dt)) := by
  constructor
  · intro q hq
    simp only [FP.update, List.mem_map] at hq
    obtain ⟨p, hp, rfl⟩ := hq
    obtain ⟨h1, h2, h3, h4⟩ := h p hp
    exact ⟨(wrap_bounds s.width _ (le_trans h1 h2)).1,
           (wrap_bounds s.width _ (le_trans h1 h2)).2,
           (wrap_bounds s.height _ (le_trans h3 h4)).1,
           (wrap_bounds s.height _ (le_trans h3 h4)).2⟩
  · intro p hp
    obtain ⟨h1, h2, h3, h4⟩ := h p hp
    have hw : (0 : ℝ) ≤ s.width := le_trans h1 h2
    have hh : (0 : ℝ) ≤ s.height := le_trans h3 h4
    exact ⟨rfl, rfl,
      (wrap_cases s.width _ hw).1, (wrap_cases s.width _ hw).2.1,
      fun ha hb => (wrap_cases s.width _ hw).2.2 ha hb,
      (wrap_cases s.height _ hh).1, (wrap_cases s.height _ hh).2.1,
      fun ha hb => (wrap_cases s.height _ hh).2.2 ha hb⟩

/-- A concrete in-bounds `FloatingParticles` state for the C4 witness. -/
noncomputable def fpW4 : FPState :=
  { options := { count := 1, color := "#ffffff", size := 2, speed := 20,
                 connectionDistance := 150, showConnections := true },
    particles := [⟨⟨50, 50⟩, ⟨1, 1⟩, 2⟩],
    width := 100, height := 100 }

/-- Witness for `floating_update_wrap_bounds` at the concrete state `fpW4`
with `deltaTime = 1`. -/
theorem floating_update_wrap_bounds_witness :
    (∀ p ∈ fpW4.particles, 0 ≤ p.position.x ∧ p.position.x ≤ fpW4.width ∧
        0 ≤ p.position.y ∧ p.position.y ≤ fpW4.height) ∧
    ((∀ q ∈ (FP.update fpW4 0 1).particles,
        0 ≤ q.position.x ∧ q.position.x ≤ fpW4.width ∧
        0 ≤ q.position.y ∧ q.position.y ≤ fpW4.height) ∧
     (∀ p ∈ fpW4.particles,
        (fpMove fpW4.width fpW4.height 1 p).velocity = p.velocity ∧
        (fpMove fpW4.width fpW4.height 1 p).size = p.size ∧
        (p.position.x + p.velocity.x * 1 < 0 →
           (fpMove fpW4.width fpW4.height 1 p).position.x = fpW4.width) ∧
        (p.position.x + p.velocity.x * 1 > fpW4.width →
           (fpMove fpW4.width fpW4.height 1 p).position.x = 0) ∧
        (0 ≤ p.position.x + p.velocity.x * 1 →
         p.position.x + p.velocity.x * 1 ≤ fpW4.width →
           (fpMove fpW4.width fpW4.height 1 p).position.x
             = p.position.x + p.velocity.x * 1) ∧
        (p.position.y + p.velocity.y * 1 < 0 →
           (fpMove fpW4.width fpW4.height 1 p).position.y = fpW4.height) ∧
        (p.position.y + p.velocity.y * 1 > fpW4.height →
           (fpMove fpW4.width fpW4.height 1 p).position.y = 0) ∧
        (0 ≤ p.position.y + p.velocity.y * 1 →
         p.position.y + p.velocity.y * 1 ≤ fpW4.height →
           (fpMove fpW4.width fpW4.height 1 p).position.y
             = p.position.y + p.velocity.y * 1))) :=
  ⟨by
     intro p hp
     simp only [fpW4, List.mem_singleton] at hp
     subst hp
     norm_num [fpW4],
   floating_update_wrap_bounds fpW4 0 1 (by
     intro p hp
     simp only [fpW4, List.mem_singleton] at hp
     subst hp
     norm_num [fpW4])⟩

/-- The `FloatingParticles` state of the C2 scenario: two particles at
`(0, 50)` and `(5, 50)` with `connectionDistance = 150`. -/
noncomputable def fpDemo : FPState :=
  { options := { count := 2, color := "#ffffff", size := 2, speed := 20,
                 connectionDistance := 150, showConnections := true },
    particles := [⟨⟨0, 50⟩, ⟨0, 0⟩, 2⟩, ⟨⟨5, 50⟩, ⟨0, 0⟩, 2⟩],
    width := 800, height := 600 }

/-- C2: the proximity graph built during a render holds the edge `(i, j)`
(with `i < j`, the orientation in which the nested loops visit each
unordered pair once) exactly when the Euclidean distance of particles `i`
and `j` is strictly below `connectionDistance`, and its alpha weight is
`1 - distance / connectionDistance`; on the two-particle scenario state the
graph is exactly one edge of alpha `1 - 5/150`. -/
theorem floating_connection_graph_spec :
    (∀ (s : FPState) (i j : ℕ) (a : ℝ),
       (i, j, a) ∈ connectionEdges s ↔
         (i < j ∧ j < s.particles.length ∧
          (s.particles.getD i default).position.distance
              (s.particles.getD j default).position
            < s.options.connectionDistance ∧
          a = 1 - (s.particles.getD i default).position.distance
                    (s.particles.getD j default).position
                  / s.options.connectionDistance)) ∧
    connectionEdges fpDemo = [(0, 1, 1 - 5 / 150)] := by
  constructor
  · intro s i j a
    constructor
    · intro hmem
      simp only [connectionEdges, List.mem_flatMap, List.mem_filterMap,
        List.mem_range, List.mem_range'_1] at hmem
      obtain ⟨i', hi', j', ⟨hj1, hj2⟩, hopt⟩ := hmem
      by_cases hd : (s.particles.getD i' default).position.distance
          (s.particles.getD j' default).position < s.options.connectionDistance
      · rw [if_pos hd] at hopt
        simp only [Option.some.injEq, Prod.mk.injEq] at hopt
        obtain ⟨rfl, rfl, rfl⟩ := hopt
        exact ⟨by omega, by omega, hd, rfl⟩
      · rw [if_neg hd] at hopt
        exact absurd hopt (by simp)
    · rintro ⟨hij, hj, hd, rfl⟩
      simp only [connectionEdges, List.mem_flatMap, List.mem_filterMap,
        List.mem_range, List.mem_range'_1]
      exact ⟨i, by omega, j, ⟨by omega, by omega⟩, by rw [if_pos hd]⟩
  · have h5 : (Vec2.mk 0 50).distance ⟨5, 50⟩ = 5 := by
      rw [Vec2.distance]
      rw [show ((0 : ℝ) - 5) ^ 2 + ((50 : ℝ) - 50) ^ 2 = 5 ^ 2 by norm_num]
      exact Real.sqrt_sq (by norm_num)
    have hr2 : List.range 2 = [0, 1] := rfl
    have hra : List.range' 1 1 = [1] := rfl
    have hrb : List.range' 2 0 = ([] : List ℕ) := rfl
    simp only [connectionEdges, fpDemo, List.length_cons, List.length_nil]
    norm_num [hr2, hra, hrb, List.filterMap_cons, h5]

/-- `ParticleSystem.resize` is idempotent for identical dimensions: the
second call sees either a non-origin emitter (left unchanged) or re-centers
to the same center. -/
theorem PS.resize_idem (s : PSState) (w h : ℝ) :
    PS.resize (PS.resize s w h) w h = PS.resize s w h := by
  obtain ⟨⟨cnt, col, sz, sp, lt', gv, ⟨ex, ey⟩, er, fo⟩, ps, wd, ht⟩ := s
  by_cases hc : ex = 0 ∧ ey = 0
  · simp only [PS.resize, Vec2.set, hc.1, hc.2]
    norm_num
  · simp [PS.resize, Vec2.set, hc]

/-- A second `FloatingParticles.resize` with the dimensions the state
already has (both positive) is the identity: the proportional rescale
divides and multiplies by the same positive size. -/
theorem FP.resize_self (o : FPOptions) (ps : List FParticle) (w h : ℝ)
    (u : ℕ → ℝ) (k' : ℕ) (hw : 0 < w) (hh : 0 < h) :
    FP.resize ⟨o, ps, w, h⟩ w h u k' = (⟨o, ps, w, h⟩, k') := by
  have hgq : ∀ q : FParticle,
      ({ q with position := ⟨q.position.x / w * w, q.position.y / h * h⟩ }
        : FParticle) = q := by
    intro q
    obtain ⟨⟨qx, qy⟩, qv, qs⟩ := q
    simp [div_mul_cancel₀ _ (ne_of_gt hw), div_mul_cancel₀ _ (ne_of_gt hh)]
  simp only [FP.resize, if_pos (⟨hw, hh⟩ : (0:ℝ) < w ∧ (0:ℝ) < h)]
  rw [List.map_congr_left fun a _ => hgq a]
  simp

/-- A second `effect.resize` with the same (positive) dimensions leaves any
already-resized effect unchanged and consumes no draws. -/
theorem EffState.resize_resize (e : EffState) (w h : ℝ) (u : ℕ → ℝ)
    (k k' : ℕ) (hw : 0 < w) (hh : 0 < h) :
    EffState.resize (EffState.resize e w h u k).1 w h u k'
      = ((EffState.resize e w h u k).1, k') := by
  match e with
  | EffState.ps s => simp [EffState.resize, PS.resize_idem s w h]
  | EffState.fp s =>
    obtain ⟨o, ps, wd, ht⟩ := s
    have hex : ∃ ps', (FP.resize ⟨o, ps, wd, ht⟩ w h u k).1 = ⟨o, ps', w, h⟩ := by
      simp only [FP.resize]
      split_ifs <;> exact ⟨_, rfl⟩
    obtain ⟨ps', hps'⟩ := hex
    simp only [EffState.resize, hps', FP.resize_self o ps' w h u k' hw hh]

/-- Re-broadcasting the same (positive) dimensions over an already-resized
effect list is the identity and consumes no draws. -/
theorem resizeEffectList_resize (w h : ℝ) (u : ℕ → ℝ) (hw : 0 < w)
    (hh : 0 < h) :
    ∀ (es : List EffState) (k k' : ℕ),
      resizeEffectList w h u ((resizeEffectList w h u es k).1) k'
        = ((resizeEffectList w h u es k).1, k') := by
  intro es
  induction es with
  | nil => intro k k'; rfl
  | cons e es ih =>
    intro k k'
    simp [resizeEffectList, EffState.resize_resize e w h u k k' hw hh,
      ih ((EffState.resize e w h u k).2) k']

/-- C6 (amended): with both target dimensions positive, resizing the engine
twice in a row with the same width and height produces exactly the same
backing-canvas state and the same particle positions in every registered
effect as resizing once. -/
theorem scene_resize_idempotent_pos (sc : Scene) (w h : ℝ) (u : ℕ → ℝ)
    (k : ℕ) (hw : 0 < w) (hh : 0 < h) :
    Scene.resize (Scene.resize sc w h u k).1 w h u (Scene.resize sc w h u k).2
      = Scene.resize sc w h u k := by
  obtain ⟨cw, ch, dp, es⟩ := sc
  simp [Scene.resize, resizeEffectList_resize w h u hw hh es k]

/-- A concrete `FloatingParticles` state for the C6 scenario: one particle
at `(3, 4)` on a `10 × 10` surface. -/
noncomputable def fpCex : FPState :=
  { options := { count := 1, color := "#ffffff", size := 0, speed := 0,
                 connectionDistance := 150, showConnections := true },
    particles := [⟨⟨3, 4⟩, ⟨0, 0⟩, 1⟩],
    width := 10, height := 10 }

/-- A concrete engine scene holding the single `FloatingParticles` effect
`fpCex`. -/
noncomputable def sceneCex : Scene :=
  { canvasW := 10, canvasH := 10, dpr := 1, effects := [EffState.fp fpCex] }

/-- A fixed stream of raw draws (every `Math.random()` call returns 1/2). -/
noncomputable def uHalf : ℕ → ℝ := fun _ => 1 / 2

/-- The x coordinate of the first particle of the scene's first
`FloatingParticles` effect (0 when there is none). -/
noncomputable def firstFPx (sc : Scene) : ℝ :=
  match sc.effects with
  | EffState.fp s :: _ => (s.particles.getD 0 default).position.x
  | _ => 0

/-- C6 counterexample: resizing `sceneCex` to `5 × 0` once leaves the
particle at `x = (3/10)·5 = 3/2`, but the second identical resize hits the
`initParticles` branch (the stored height `0` fails the `oldHeight > 0`
guard) and re-randomizes the particle to `x = 5/2`, so resize is not
idempotent for every pair of identical dimensions. -/
theorem scene_resize_not_idempotent_cex :
    firstFPx (Scene.resize sceneCex 5 0 uHalf 0).1 = 3 / 2 ∧
    firstFPx (Scene.resize (Scene.resize sceneCex 5 0 uHalf 0).1 5 0 uHalf
        (Scene.resize sceneCex 5 0 uHalf 0).2).1 = 5 / 2 ∧
    Scene.resize (Scene.resize sceneCex 5 0 uHalf 0).1 5 0 uHalf
        (Scene.resize sceneCex 5 0 uHalf 0).2
      ≠ Scene.resize sceneCex 5 0 uHalf 0 := by
  have h1 : firstFPx (Scene.resize sceneCex 5 0 uHalf 0).1 = 3 / 2 := by
    norm_num [Scene.resize, resizeEffectList, EffState.resize, FP.resize,
      sceneCex, fpCex, firstFPx]
  have h2 : firstFPx (Scene.resize (Scene.resize sceneCex 5 0 uHalf 0).1 5 0
      uHalf (Scene.resize sceneCex 5 0 uHalf 0).2).1 = 5 / 2 := by
    norm_num [Scene.resize, resizeEffectList, EffState.resize, FP.resize,
      sceneCex, fpCex, firstFPx, initFloatingLoop, createFloating, random, uHalf]
  refine ⟨h1, h2, ?_⟩
  intro heq
  have hx : firstFPx (Scene.resize (Scene.resize sceneCex 5 0 uHalf 0).1 5 0
      uHalf (Scene.resize sceneCex 5 0 uHalf 0).2).1
      = firstFPx (Scene.resize sceneCex 5 0 uHalf 0).1 :=
    congrArg (fun r => firstFPx r.1) heq
  rw [h1, h2] at hx
  norm_num at hx

/-- Witness for `scene_resize_idempotent_pos` at `sceneCex` with the
positive dimensions `5 × 5`. -/
theorem scene_resize_idempotent_pos_witness :
    (0 : ℝ) < 5 ∧ (0 : ℝ) < 5 ∧
    Scene.resize (Scene.resize sceneCex 5 5 uHalf 0).1 5 5 uHalf
        (Scene.resize sceneCex 5 5 uHalf 0).2
      = Scene.resize sceneCex 5 5 uHalf 0 :=
  ⟨by norm_num, by norm_num,
   scene_resize_idempotent_pos sceneCex 5 5 uHalf 0 (by norm_num) (by norm_num)⟩
